import Mathlib

/-!
# pg_timetable: the built-in task registry

Shallow embedding of `internal/tasks/tasks.go` (the `Tasks` registry,
`ExecuteTask`, `taskNoOp`, `taskSleep`) together with the collaborators it calls
(`pgengine.LogToDB`, `strconv.Atoi`, `time.Sleep`), and theorems about them.

Effects are modelled by explicit state passing: a Go function with side effects
becomes a function `World → result × World`.  The `World` records, in call order,
every call made to an external collaborator, so that "was invoked", "slept" and
"wrote to the store" are statements about the trace.
-/

namespace PgTimetable

/-! ## Errors -/

/-- The two sentinel errors of package strconv: `ErrSyntax` and `ErrRange`. -/
inductive NumErrKind where
  | ErrSyntax
  | ErrRange
  deriving DecidableEq, Repr

/-- Go `error` values that occur in the embedded code: the result of
`errors.New(msg)` and a `*strconv.NumError` with fields `Func`, `Num`, `Err`.
A nil error is `none : Option GoError`. -/
inductive GoError where
  | errorsNew (msg : String)
  | numError (func : String) (num : String) (err : NumErrKind)
  deriving DecidableEq, Repr

/-! ## The world: recorded calls to collaborators -/

/-- One operand of the variadic `msg ...interface{}` of `LogToDB`: tasks.go passes
strings and one `int`. -/
inductive LogArg where
  | str (s : String)
  | int (d : Int)
  deriving DecidableEq, Repr

/-- A call to a collaborator outside tasks.go. -/
inductive Event where
  /-- A call `pgengine.LogToDB(level, msg...)`. -/
  | logToDB (level : String) (msg : List LogArg)
  /-- A call `time.Sleep(d)`, with `d` the `time.Duration` in nanoseconds. -/
  | sleep (d : Int)
  /-- One statement sent to the store inside a transaction. -/
  | txExec (script : String) (params : List String)
  /-- Any other externally visible action (mail, download, ...). -/
  | other (tag : String) (arg : String)
  deriving DecidableEq, Repr

/-- The state threaded through the embedded code: the verbosity flag of the
logger, the calls made so far (oldest first) and the rows persisted in the
store's log table (oldest first). -/
structure World where
  verbose : Bool
  trace : List Event
  log : List (String × List LogArg)
  deriving DecidableEq, Repr

/-- Modelled from the spec: the level filter of `pgengine.LogToDB`, which is not
part of the available sources.  "Under a non-verbose configuration,
DEBUG/NOTICE/LOG entries are not persisted, ERROR/PANIC always are." -/
def persisted (verbose : Bool) (level : String) : Bool :=
  level == "ERROR" || level == "PANIC" ||
    (verbose && (level == "DEBUG" || level == "NOTICE" || level == "LOG"))

/-- Modelled from the spec: `pgengine.LogToDB(level, msg...)`, which is not part of
the available sources.  The call is recorded in the trace and the row is written
to the store's log table when the level filter lets it through. -/
def LogToDB (level : String) (msg : List LogArg) (w : World) : World :=
  { w with
    trace := w.trace ++ [Event.logToDB level msg]
    log := if persisted w.verbose level then w.log ++ [(level, msg)] else w.log }

/-- The call `time.Sleep(d)`: recorded in the trace.  (The Go runtime returns
immediately when `d ≤ 0` and otherwise pauses the goroutine for at least `d`.) -/
def timeSleep (d : Int) (w : World) : World :=
  { w with trace := w.trace ++ [Event.sleep d] }

/-- Whether `time.Sleep(d)` pauses the caller at all. -/
def blocks (d : Int) : Bool := decide (0 < d)

/-- The durations of the `time.Sleep` calls in a trace, in call order. -/
def sleepsOf : List Event → List Int
  | [] => []
  | Event.sleep d :: es => d :: sleepsOf es
  | _ :: es => sleepsOf es

/-- The `LogToDB` calls in a trace, in call order. -/
def logCallsOf : List Event → List (String × List LogArg)
  | [] => []
  | Event.logToDB level msg :: es => (level, msg) :: logCallsOf es
  | _ :: es => logCallsOf es

/-- The statements sent to the store in a trace, in call order. -/
def txExecsOf : List Event → List (String × List String)
  | [] => []
  | Event.txExec script params :: es => (script, params) :: txExecsOf es
  | _ :: es => txExecsOf es

/-! ## Machine integers and `strconv.Atoi` -/

/-- Two's-complement wrap-around of an integer into the range of `int64`. -/
def wrapInt64 (x : Int) : Int := (x + 2 ^ 63) % 2 ^ 64 - 2 ^ 63

/-- The constant `time.Second`: one second as a `time.Duration` (nanoseconds). -/
def Second : Int := 1000000000

/-- The value of a decimal digit byte, `none` for any other character
(`ch -= '0'; if ch > 9 { syntax error }`). -/
def digitVal (c : Char) : Option Nat :=
  if 48 ≤ c.toNat ∧ c.toNat ≤ 57 then some (c.toNat - 48) else none

/-- The digit loop of `strconv.ParseUint` for base 10: a byte that is not a digit
is a syntax error, a value above `maxVal` is a range error (reported as soon as
it is reached). -/
def parseUintLoop (maxVal : Nat) : List Char → Nat → Except NumErrKind Nat
  | [], n => Except.ok n
  | c :: cs, n =>
    match digitVal c with
    | none => Except.error NumErrKind.ErrSyntax
    | some d =>
      if maxVal < n * 10 + d then Except.error NumErrKind.ErrRange
      else parseUintLoop maxVal cs (n * 10 + d)

/-- The function `strconv.Atoi(s)` for an `int` of `intSize` bits, by its
documented behaviour (`ParseInt(s, 10, 0)` converted to `int`): an optional sign
`+` or `-`, then at least one decimal digit and nothing else; the value must lie
in `[-2^(intSize-1), 2^(intSize-1) - 1]`.  Failure is a `*NumError` with
`Func = "Atoi"` and `Num = s`. -/
def Atoi (intSize : Nat) (s : String) : Except GoError Int :=
  match s.data with
  | [] => Except.error (GoError.numError "Atoi" s NumErrKind.ErrSyntax)
  | c :: rest =>
    let neg : Bool := c == '-'
    let digits : List Char := if c == '+' || c == '-' then rest else c :: rest
    match digits with
    | [] => Except.error (GoError.numError "Atoi" s NumErrKind.ErrSyntax)
    | _ :: _ =>
      match parseUintLoop (2 ^ intSize - 1) digits 0 with
      | Except.error k => Except.error (GoError.numError "Atoi" s k)
      | Except.ok un =>
        let cutoff : Nat := 2 ^ (intSize - 1)
        if !neg && decide (cutoff ≤ un) then
          Except.error (GoError.numError "Atoi" s NumErrKind.ErrRange)
        else if neg && decide (cutoff < un) then
          Except.error (GoError.numError "Atoi" s NumErrKind.ErrRange)
        else Except.ok (if neg then -(un : Int) else (un : Int))

/-! ## tasks.go -/

/-- The type `func(string) error` of a task function, with its effects. -/
abbrev TaskFn := String → World → Option GoError × World

/-- The parts of the build that tasks.go refers to but does not define: the width
of `int` on the platform, and the three task functions `taskLog`, `taskSendMail`
and `taskDownloadFile`, which live in other files of package tasks. -/
structure Env where
  intSize : Nat
  taskLog : TaskFn
  taskSendMail : TaskFn
  taskDownloadFile : TaskFn

/-- `func taskNoOp(val string) error` (tasks.go, lines 39-42). -/
def taskNoOp (val : String) (w : World) : Option GoError × World :=
  (none, LogToDB "DEBUG" [LogArg.str "NoOp task called with value: ", LogArg.str val] w)

/-- `func taskSleep(val string) (err error)` (tasks.go, lines 44-52).  The
duration is `time.Duration(d) * time.Second`, an `int64` product that wraps. -/
def taskSleep (intSize : Nat) (val : String) (w : World) : Option GoError × World :=
  match Atoi intSize val with
  | Except.error err => (some err, w)
  | Except.ok d =>
    let w1 := LogToDB "DEBUG"
      [LogArg.str "Sleep task called for ", LogArg.int d, LogArg.str " seconds"] w
    (none, timeSleep (wrapInt64 (wrapInt64 d * Second)) w1)

/-- `var Tasks = map[string](func(string) error){...}` (tasks.go, lines 13-18), as
an association list in the order of the map literal.  `Tasks[name]` is
`(Tasks env).lookup name`; a missing key gives the nil function, here `none`. -/
def Tasks (env : Env) : List (String × TaskFn) :=
  [("NoOp", taskNoOp),
   ("Sleep", taskSleep env.intSize),
   ("Log", env.taskLog),
   ("SendMail", env.taskSendMail),
   ("Download", env.taskDownloadFile)]

/-- The verb `%v` of package fmt applied to a `[]string`: the elements separated
by one space, in square brackets; a nil or empty slice prints as `[]`. -/
def fmtSlice (vs : List String) : String :=
  "[" ++ " ".intercalate vs ++ "]"

/-- The message built at tasks.go line 22:
`fmt.Sprintf("Executing builtin task %s with parameters %v", name, paramValues)`. -/
def executingMsg (name : String) (paramValues : List String) : String :=
  "Executing builtin task " ++ name ++ " with parameters " ++ fmtSlice paramValues

/-- The loop of `ExecuteTask` (tasks.go, lines 30-36):
`for _, val := range paramValues { err := f(val); if err != nil { return err } }`
followed by `return nil`. -/
def rangeLoop (f : TaskFn) : List String → World → Option GoError × World
  | [], w => (none, w)
  | val :: rest, w =>
    match f val w with
    | (some err, w1) => (some err, w1)
    | (none, w1) => rangeLoop f rest w1

/-- `func ExecuteTask(name string, paramValues []string) error` (tasks.go, lines
21-37). -/
def ExecuteTask (env : Env) (name : String) (paramValues : List String) (w : World) :
    Option GoError × World :=
  let w0 := LogToDB "DEBUG" [LogArg.str (executingMsg name paramValues)] w
  let paramValues := if paramValues.length = 0 then paramValues ++ [""] else paramValues
  match (Tasks env).lookup name with
  | none => (some (GoError.errorsNew ("No built-in task found: " ++ name)), w0)
  | some f => rangeLoop f paramValues w0

/-- The `return` statements of `ExecuteTask`: line 28 (task not found), line 33
(the error of a task function) and line 36 (nil after the loop). -/
inductive ReturnSite where
  | line28
  | line33
  | line36
  deriving DecidableEq, Repr

/-- The loop of `ExecuteTask` (tasks.go, lines 30-36) as in `rangeLoop`, where
each `return` also yields its line. -/
def rangeLoopSite (f : TaskFn) : List String → World → ReturnSite × Option GoError × World
  | [], w => (ReturnSite.line36, none, w)
  | val :: rest, w =>
    match f val w with
    | (some err, w1) => (ReturnSite.line33, some err, w1)
    | (none, w1) => rangeLoopSite f rest w1

/-- `func ExecuteTask` (tasks.go, lines 21-37) as in `ExecuteTask`, where each
`return` also yields its line.  In Go the value made by `errors.New` at line 28
is a fresh pointer, equal to no error that a task function hands back; the line of
the `return` keeps that distinction, which the message text alone does not. -/
def ExecuteTaskSite (env : Env) (name : String) (paramValues : List String) (w : World) :
    ReturnSite × Option GoError × World :=
  let w0 := LogToDB "DEBUG" [LogArg.str (executingMsg name paramValues)] w
  let paramValues := if paramValues.length = 0 then paramValues ++ [""] else paramValues
  match (Tasks env).lookup name with
  | none => (ReturnSite.line28, some (GoError.errorsNew ("No built-in task found: " ++ name)), w0)
  | some f => rangeLoopSite f paramValues w0

/-! ## Specification-side notions for the fan-out over parameter values -/

/-- The world after invoking `f` on every value of `vs`, in list order, once each,
whatever the invocations return. -/
def worldAfter (f : TaskFn) : List String → World → World
  | [], w => w
  | v :: vs, w => worldAfter f vs (f v w).2

/-- Whether `f` returns a nil error on every value of `vs` when it is invoked on
them in list order, once each. -/
def allNil (f : TaskFn) : List String → World → Bool
  | [], _ => true
  | v :: vs, w => (f v w).1.isNone && allNil f vs (f v w).2

/-- The five keys of the map literal, in the order of the literal. -/
def taskNames : List String := ["NoOp", "Sleep", "Log", "SendMail", "Download"]

/-- The world in which `ExecuteTask` looks the name up: the state after the call
to `LogToDB` at line 22. -/
def entryWorld (name : String) (paramValues : List String) (w : World) : World :=
  LogToDB "DEBUG" [LogArg.str (executingMsg name paramValues)] w

/-- The error built at line 28. -/
def notFound (name : String) : GoError :=
  GoError.errorsNew ("No built-in task found: " ++ name)

/-! ## The SQL command executor (not in the available sources) -/

/-- Modelled from the spec: the white space characters of an SQL command body
(space, tab, line feed, vertical tab, form feed, carriage return). -/
def isSpace (c : Char) : Bool :=
  c.toNat == 32 || (decide (9 ≤ c.toNat) && decide (c.toNat ≤ 13))

/-- Modelled from the spec: the answer of the store, an external collaborator, to
one statement.  The spec fixes the answer in one case, Scenario C
("`Execute(sqlText=";")` succeeds", which the test "Check ExecuteSQLCommand
function" asserts for a nil and for an empty parameter list): the statement ";"
sent without parameters is accepted.  In every other case the answer (nil or an
error) is that of `store`, on which nothing is assumed. -/
def storeAnswer (store : String → List String → World → Option GoError) (script : String)
    (params : List String) (w : World) : Option GoError :=
  if script = ";" ∧ params = [] then none else store script params w

/-- Modelled from the spec: one round trip to the store: the statement is recorded
in the trace and the store's answer is returned. -/
def txExec (store : String → List String → World → Option GoError) (script : String)
    (params : List String) (w : World) : Option GoError × World :=
  (storeAnswer store script params w,
    { w with trace := w.trace ++ [Event.txExec script params] })

/-- Modelled from the spec: the round trips for a non-empty list of parameter
values, "once per set" in list order.  The spec does not say what follows a
failed round trip; here the first error ends the run. -/
def txExecEach (store : String → List String → World → Option GoError) (script : String) :
    List String → World → Option GoError × World
  | [], w => (none, w)
  | val :: rest, w =>
    match txExec store script [val] w with
    | (some err, w1) => (some err, w1)
    | (none, w1) => txExecEach store script rest w1

/-- Modelled from the spec: `pgengine.ExecuteSQLCommand(tx, script, paramValues)`,
of which only the test is among the available sources.  "An empty or
whitespace-only SQL command body is rejected before execution (explicit
validation error, not a store round-trip)"; otherwise the command is sent to the
store, once without parameters when there are no parameter values, and once per
parameter value otherwise.  The text of the validation error is not fixed by the
spec.  A nil and an empty `paramValues` are both the empty list. -/
def ExecuteSQLCommand (store : String → List String → World → Option GoError)
    (script : String) (paramValues : List String) (w : World) : Option GoError × World :=
  if script.data.all isSpace then
    (some (GoError.errorsNew "SQL script cannot be empty"), w)
  else if paramValues.length = 0 then txExec store script [] w
  else txExecEach store script paramValues w

/-! ## Sample inputs -/

/-- A sample build: 64-bit `int`, a `taskLog` that logs its value at level LOG, a
`taskSendMail` that performs one external action, and a `taskDownloadFile` that
fails on every value. -/
def sampleEnv : Env :=
  { intSize := 64
    taskLog := fun v w => (none, LogToDB "LOG" [LogArg.str v] w)
    taskSendMail := fun v w => (none, { w with trace := w.trace ++ [Event.other "mail" v] })
    taskDownloadFile := fun v w => (some (GoError.errorsNew ("cannot download " ++ v)), w) }

/-- A sample initial world: verbose logging, nothing called or stored yet. -/
def sampleWorld : World := { verbose := true, trace := [], log := [] }

/-- A sample initial world with non-verbose logging. -/
def quietWorld : World := { verbose := false, trace := [], log := [] }

/-! ## Auxiliary lemmas -/

theorem sleepsOf_append (a b : List Event) : sleepsOf (a ++ b) = sleepsOf a ++ sleepsOf b := by
  induction a with
  | nil => rfl
  | cons e es ih => cases e <;> simp [sleepsOf, ih]

theorem txExecsOf_append (a b : List Event) :
    txExecsOf (a ++ b) = txExecsOf a ++ txExecsOf b := by
  induction a with
  | nil => rfl
  | cons e es ih => cases e <;> simp [txExecsOf, ih]

theorem logCallsOf_append (a b : List Event) :
    logCallsOf (a ++ b) = logCallsOf a ++ logCallsOf b := by
  induction a with
  | nil => rfl
  | cons e es ih => cases e <;> simp [logCallsOf, ih]

theorem Tasks_keys (env : Env) : (Tasks env).map Prod.fst = taskNames := rfl

theorem Tasks_lookup_none (env : Env) (name : String) (h : name ∉ taskNames) :
    (Tasks env).lookup name = none := by
  simp only [taskNames, List.mem_cons, List.mem_singleton, List.not_mem_nil, or_false,
    not_or] at h
  obtain ⟨h1, h2, h3, h4, h5⟩ := h
  simp [Tasks, List.lookup, beq_eq_false_iff_ne.mpr h1, beq_eq_false_iff_ne.mpr h2,
    beq_eq_false_iff_ne.mpr h3, beq_eq_false_iff_ne.mpr h4, beq_eq_false_iff_ne.mpr h5]

theorem Tasks_lookup_some (env : Env) (name : String) (h : name ∈ taskNames) :
    ∃ f, (Tasks env).lookup name = some f := by
  simp only [taskNames, List.mem_cons, List.mem_singleton, List.not_mem_nil, or_false] at h
  rcases h with h | h | h | h | h <;> subst h
  · exact ⟨_, rfl⟩
  · exact ⟨_, rfl⟩
  · exact ⟨_, rfl⟩
  · exact ⟨_, rfl⟩
  · exact ⟨_, rfl⟩

theorem ExecuteTask_of_lookup_none (env : Env) (name : String) (vs : List String) (w : World)
    (h : (Tasks env).lookup name = none) :
    ExecuteTask env name vs w = (some (notFound name), entryWorld name vs w) := by
  simp [ExecuteTask, h, notFound, entryWorld]

theorem ExecuteTask_of_lookup_some (env : Env) (name : String) (f : TaskFn)
    (vs : List String) (w : World) (h : (Tasks env).lookup name = some f) :
    ExecuteTask env name vs w =
      rangeLoop f (if vs.length = 0 then vs ++ [""] else vs) (entryWorld name vs w) := by
  simp [ExecuteTask, h, entryWorld]

theorem worldAfter_append (f : TaskFn) (pre post : List String) (w : World) :
    worldAfter f (pre ++ post) w = worldAfter f post (worldAfter f pre w) := by
  induction pre generalizing w with
  | nil => rfl
  | cons v vs ih => simp [worldAfter, ih]

theorem rangeLoop_spec (f : TaskFn) (vs : List String) (w : World) :
    (allNil f vs w = true ∧ rangeLoop f vs w = (none, worldAfter f vs w)) ∨
    (∃ pre v post err, vs = pre ++ v :: post ∧ allNil f pre w = true ∧
      (f v (worldAfter f pre w)).1 = some err ∧
      rangeLoop f vs w = (some err, worldAfter f (pre ++ [v]) w)) := by
  induction vs generalizing w with
  | nil => exact Or.inl ⟨rfl, rfl⟩
  | cons v vs ih =>
    rcases hfv : f v w with ⟨r, w1⟩
    cases r with
    | some err =>
      refine Or.inr ⟨[], v, vs, err, rfl, rfl, ?_, ?_⟩
      · simp [worldAfter, hfv]
      · simp [rangeLoop, worldAfter, hfv]
    | none =>
      rcases ih w1 with ⟨h1, h2⟩ | ⟨pre, u, post, err, h1, h2, h3, h4⟩
      · refine Or.inl ⟨?_, ?_⟩
        · simp [allNil, hfv, h1]
        · simp [rangeLoop, worldAfter, hfv, h2]
      · refine Or.inr ⟨v :: pre, u, post, err, ?_, ?_, ?_, ?_⟩
        · simp [h1]
        · simp [allNil, hfv, h2]
        · simpa [worldAfter, hfv] using h3
        · simpa [rangeLoop, worldAfter, hfv] using h4

theorem Atoi_error_shape (intSize : Nat) (s : String) (err : GoError)
    (h : Atoi intSize s = Except.error err) : ∃ k, err = GoError.numError "Atoi" s k := by
  unfold Atoi at h
  split at h
  · exact ⟨_, (Except.error.inj h).symm⟩
  · simp only at h
    split at h
    · exact ⟨_, (Except.error.inj h).symm⟩
    · split at h
      · exact ⟨_, (Except.error.inj h).symm⟩
      · split at h
        · exact ⟨_, (Except.error.inj h).symm⟩
        · split at h
          · exact ⟨_, (Except.error.inj h).symm⟩
          · cases h

theorem taskSleep_of_error (intSize : Nat) (v : String) (err : GoError) (w : World)
    (h : Atoi intSize v = Except.error err) : taskSleep intSize v w = (some err, w) := by
  simp [taskSleep, h]

theorem taskSleep_of_ok (intSize : Nat) (v : String) (d : Int) (w : World)
    (h : Atoi intSize v = Except.ok d) :
    taskSleep intSize v w =
      (none, timeSleep (wrapInt64 (wrapInt64 d * Second))
        (LogToDB "DEBUG"
          [LogArg.str "Sleep task called for ", LogArg.int d, LogArg.str " seconds"] w)) := by
  simp [taskSleep, h]

theorem rangeLoop_taskSleep_result (intSize : Nat) (vs : List String) (w : World) :
    (rangeLoop (taskSleep intSize) vs w).1 = none ∨
    ∃ num k, (rangeLoop (taskSleep intSize) vs w).1 = some (GoError.numError "Atoi" num k) := by
  induction vs generalizing w with
  | nil => exact Or.inl rfl
  | cons v vs ih =>
    cases hA : Atoi intSize v with
    | error err =>
      obtain ⟨k, hk⟩ := Atoi_error_shape intSize v err hA
      refine Or.inr ⟨v, k, ?_⟩
      simp [rangeLoop, taskSleep_of_error intSize v err w hA, hk]
    | ok d =>
      simp only [rangeLoop, taskSleep_of_ok intSize v d w hA]
      exact ih _

theorem rangeLoop_taskSleep_prefix (intSize : Nat) (v : String) (err : GoError)
    (post : List String) (h : Atoi intSize v = Except.error err)
    (pre : List String) (ds : List Int)
    (hpre : List.Forall₂ (fun u d => Atoi intSize u = Except.ok d) pre ds) (w : World) :
    (rangeLoop (taskSleep intSize) (pre ++ v :: post) w).1 = some err ∧
    sleepsOf (rangeLoop (taskSleep intSize) (pre ++ v :: post) w).2.trace =
      sleepsOf w.trace ++ ds.map (fun d => wrapInt64 (wrapInt64 d * Second)) := by
  induction hpre generalizing w with
  | nil => simp [rangeLoop, taskSleep_of_error intSize v err w h]
  | @cons u d us ds2 hu _ ih =>
    simp only [List.cons_append, rangeLoop, taskSleep_of_ok intSize u d w hu]
    obtain ⟨h1, h2⟩ := ih (timeSleep (wrapInt64 (wrapInt64 d * Second))
      (LogToDB "DEBUG"
        [LogArg.str "Sleep task called for ", LogArg.int d, LogArg.str " seconds"] w))
    refine ⟨h1, Eq.trans h2 ?_⟩
    simp [timeSleep, LogToDB, sleepsOf_append, sleepsOf]

theorem rangeLoop_taskNoOp (vs : List String) (w : World) :
    (rangeLoop taskNoOp vs w).1 = none ∧
    (rangeLoop taskNoOp vs w).2.trace =
      w.trace ++ vs.map (fun v =>
        Event.logToDB "DEBUG" [LogArg.str "NoOp task called with value: ", LogArg.str v]) := by
  induction vs generalizing w with
  | nil => simp [rangeLoop]
  | cons v vs ih =>
    obtain ⟨h1, h2⟩ := ih (taskNoOp v w).2
    refine ⟨?_, ?_⟩
    · simpa [rangeLoop, taskNoOp] using h1
    · simp only [rangeLoop, taskNoOp] at h2 ⊢
      rw [h2]
      simp [LogToDB]

theorem entryWorld_trace (name : String) (vs : List String) (w : World) :
    (entryWorld name vs w).trace =
      w.trace ++ [Event.logToDB "DEBUG" [LogArg.str (executingMsg name vs)]] := rfl

theorem rangeLoopSite_snd (f : TaskFn) (vs : List String) (w : World) :
    (rangeLoopSite f vs w).2 = rangeLoop f vs w := by
  induction vs generalizing w with
  | nil => rfl
  | cons v vs ih =>
    rcases hfv : f v w with ⟨r, w1⟩
    cases r with
    | some err => simp [rangeLoopSite, rangeLoop, hfv]
    | none => simpa [rangeLoopSite, rangeLoop, hfv] using ih w1

theorem rangeLoopSite_ne_line28 (f : TaskFn) (vs : List String) (w : World) :
    (rangeLoopSite f vs w).1 ≠ ReturnSite.line28 := by
  induction vs generalizing w with
  | nil => simp [rangeLoopSite]
  | cons v vs ih =>
    rcases hfv : f v w with ⟨r, w1⟩
    cases r with
    | some err => simp [rangeLoopSite, hfv]
    | none => simpa [rangeLoopSite, hfv] using ih w1

theorem rangeLoop_error_origin (f : TaskFn) (vs : List String) (w : World) (e : GoError)
    (h : (rangeLoop f vs w).1 = some e) :
    ∃ v w1, v ∈ vs ∧ f v w1 = (some e, (rangeLoop f vs w).2) := by
  induction vs generalizing w with
  | nil => simp [rangeLoop] at h
  | cons v vs ih =>
    rcases hfv : f v w with ⟨r, w2⟩
    cases r with
    | some err =>
      simp only [rangeLoop, hfv] at h ⊢
      cases h
      exact ⟨v, w, List.mem_cons_self v vs, hfv⟩
    | none =>
      simp only [rangeLoop, hfv] at h ⊢
      obtain ⟨u, w1, hu, hfu⟩ := ih w2 h
      exact ⟨u, w1, List.mem_cons_of_mem v hu, hfu⟩

/-! ## The fan-out contract of `ExecuteTask` -/

/-- C1: for a registered task name with task function `f` and a non-empty list of
parameter values `vs`, `ExecuteTask` invokes `f` on the values of `vs` in list
order, once each, up to and including the first value on which `f` returns an
error and on no value after it, and returns that error; when `f` fails on no
value, it returns nil after invoking `f` once on every value.  Here `w0` is the
world in which the loop starts (after the entry log call). -/
theorem ExecuteTask_fanout (env : Env) (name : String) (f : TaskFn) (vs : List String)
    (w : World) (hf : (Tasks env).lookup name = some f) (hvs : vs ≠ []) :
    (allNil f vs (entryWorld name vs w) = true ∧
      ExecuteTask env name vs w = (none, worldAfter f vs (entryWorld name vs w))) ∨
    (∃ pre v post err, vs = pre ++ v :: post ∧
      allNil f pre (entryWorld name vs w) = true ∧
      (f v (worldAfter f pre (entryWorld name vs w))).1 = some err ∧
      ExecuteTask env name vs w =
        (some err, worldAfter f (pre ++ [v]) (entryWorld name vs w))) := by
  have hlen : ¬ vs.length = 0 := by
    intro h
    exact hvs (List.length_eq_zero.mp h)
  rw [ExecuteTask_of_lookup_some env name f vs w hf, if_neg hlen]
  exact rangeLoop_spec f vs (entryWorld name vs w)

/-- Instance of C1: the Sleep task on `["1", "x", "2"]`. -/
theorem ExecuteTask_fanout_witness :
    (allNil (taskSleep 64) ["1", "x", "2"] (entryWorld "Sleep" ["1", "x", "2"] sampleWorld)
        = true ∧
      ExecuteTask sampleEnv "Sleep" ["1", "x", "2"] sampleWorld =
        (none, worldAfter (taskSleep 64) ["1", "x", "2"]
          (entryWorld "Sleep" ["1", "x", "2"] sampleWorld))) ∨
    (∃ pre v post err, ["1", "x", "2"] = pre ++ v :: post ∧
      allNil (taskSleep 64) pre (entryWorld "Sleep" ["1", "x", "2"] sampleWorld) = true ∧
      (taskSleep 64 v (worldAfter (taskSleep 64) pre
        (entryWorld "Sleep" ["1", "x", "2"] sampleWorld))).1 = some err ∧
      ExecuteTask sampleEnv "Sleep" ["1", "x", "2"] sampleWorld =
        (some err, worldAfter (taskSleep 64) (pre ++ [v])
          (entryWorld "Sleep" ["1", "x", "2"] sampleWorld))) :=
  ExecuteTask_fanout sampleEnv "Sleep" (taskSleep 64) ["1", "x", "2"] sampleWorld rfl
    (by decide)

/-- C2: for a name that is not a key of the registry and any list of parameter
values, `ExecuteTask` returns (rather than panics with) the error
`errors.New("No built-in task found: " + name)`; the only effect is the entry log
call, so no task function was invoked, whatever the task functions are. -/
theorem ExecuteTask_unknown_name (env : Env) (name : String) (vs : List String) (w : World)
    (h : name ∉ (Tasks env).map Prod.fst) :
    ExecuteTask env name vs w =
      (some (GoError.errorsNew ("No built-in task found: " ++ name)),
        LogToDB "DEBUG" [LogArg.str (executingMsg name vs)] w) ∧
    (∀ env2 : Env, ExecuteTask env2 name vs w = ExecuteTask env name vs w) := by
  rw [Tasks_keys] at h
  refine ⟨?_, fun env2 => ?_⟩
  · rw [ExecuteTask_of_lookup_none env name vs w (Tasks_lookup_none env name h)]
    rfl
  · rw [ExecuteTask_of_lookup_none env name vs w (Tasks_lookup_none env name h),
      ExecuteTask_of_lookup_none env2 name vs w (Tasks_lookup_none env2 name h)]

/-- Instance of C2: the name `"Mail"` with two parameter values. -/
theorem ExecuteTask_unknown_name_witness :
    ExecuteTask sampleEnv "Mail" ["a", "b"] sampleWorld =
      (some (GoError.errorsNew ("No built-in task found: " ++ "Mail")),
        LogToDB "DEBUG" [LogArg.str (executingMsg "Mail" ["a", "b"])] sampleWorld) ∧
    (∀ env2 : Env, ExecuteTask env2 "Mail" ["a", "b"] sampleWorld =
      ExecuteTask sampleEnv "Mail" ["a", "b"] sampleWorld) :=
  ExecuteTask_unknown_name sampleEnv "Mail" ["a", "b"] sampleWorld (by decide)

/-- C3: for a registered task name with task function `f`, `ExecuteTask` on the
empty parameter list invokes `f` exactly once, on the empty string, and returns
what that invocation returns; it behaves as `ExecuteTask` on `[""]`.  For NoOp the
result is nil and the trace shows the entry log call followed by the one
invocation of the task. -/
theorem ExecuteTask_empty_params (env : Env) (name : String) (f : TaskFn) (w : World)
    (hf : (Tasks env).lookup name = some f) :
    ExecuteTask env name [] w = f "" (entryWorld name [] w) ∧
    ExecuteTask env name [] w = ExecuteTask env name [""] w ∧
    (ExecuteTask env "NoOp" [] w).1 = none ∧
    (ExecuteTask env "NoOp" [] w).2.trace =
      w.trace ++ [Event.logToDB "DEBUG" [LogArg.str (executingMsg "NoOp" [])],
        Event.logToDB "DEBUG"
          [LogArg.str "NoOp task called with value: ", LogArg.str ""]] := by
  have hloop : ∀ w1 : World, rangeLoop f [""] w1 = f "" w1 := by
    intro w1
    rcases hfv : f "" w1 with ⟨r, w2⟩
    cases r <;> simp [rangeLoop, hfv]
  have hmsg : entryWorld name [""] w = entryWorld name [] w := rfl
  refine ⟨?_, ?_, ?_, ?_⟩
  · rw [ExecuteTask_of_lookup_some env name f [] w hf]
    exact hloop _
  · rw [ExecuteTask_of_lookup_some env name f [] w hf,
      ExecuteTask_of_lookup_some env name f [""] w hf, hmsg]
    rfl
  · rw [ExecuteTask_of_lookup_some env "NoOp" taskNoOp [] w rfl]
    rfl
  · rw [ExecuteTask_of_lookup_some env "NoOp" taskNoOp [] w rfl]
    simp [rangeLoop, taskNoOp, entryWorld, LogToDB]

/-- Instance of C3: the Download task of the sample build on the empty list. -/
theorem ExecuteTask_empty_params_witness :
    ExecuteTask sampleEnv "Download" [] sampleWorld =
      sampleEnv.taskDownloadFile "" (entryWorld "Download" [] sampleWorld) ∧
    ExecuteTask sampleEnv "Download" [] sampleWorld =
      ExecuteTask sampleEnv "Download" [""] sampleWorld ∧
    (ExecuteTask sampleEnv "NoOp" [] sampleWorld).1 = none ∧
    (ExecuteTask sampleEnv "NoOp" [] sampleWorld).2.trace =
      sampleWorld.trace ++ [Event.logToDB "DEBUG" [LogArg.str (executingMsg "NoOp" [])],
        Event.logToDB "DEBUG"
          [LogArg.str "NoOp task called with value: ", LogArg.str ""]] :=
  ExecuteTask_empty_params sampleEnv "Download" sampleEnv.taskDownloadFile sampleWorld rfl

/-! ## The registry and its built-in tasks -/

/-- C4: the registry has exactly the five keys NoOp, Sleep, Log, SendMail and
Download, each bound to its own task function, and lookup is exact and
case-sensitive: the `return` of line 28, which makes the task-not-found error, is
the one executed exactly for the names that are not character for character one
of the five (among them "noop", "SLEEP", "Sleep " and the empty name), and for
those names the result is that error.  For each of the five, line 28 is not
executed: an error that comes back is the very error the registered task function
returned on one of the values, so `ExecuteTask` hands back the task-not-found
text only if the task function itself did; NoOp and Sleep, whose bodies are in
tasks.go, never do. -/
theorem Tasks_exact_lookup (env : Env) :
    (Tasks env).map Prod.fst = ["NoOp", "Sleep", "Log", "SendMail", "Download"] ∧
    ((Tasks env).map Prod.fst).Nodup ∧
    (Tasks env).lookup "NoOp" = some taskNoOp ∧
    (Tasks env).lookup "Sleep" = some (taskSleep env.intSize) ∧
    (Tasks env).lookup "Log" = some env.taskLog ∧
    (Tasks env).lookup "SendMail" = some env.taskSendMail ∧
    (Tasks env).lookup "Download" = some env.taskDownloadFile ∧
    (∀ name vs w, (ExecuteTaskSite env name vs w).2 = ExecuteTask env name vs w) ∧
    (∀ name vs w, (ExecuteTaskSite env name vs w).1 = ReturnSite.line28 ↔
      name ∉ (Tasks env).map Prod.fst) ∧
    (∀ name vs w, name ∉ (Tasks env).map Prod.fst →
      ExecuteTask env name vs w = (some (notFound name), entryWorld name vs w)) ∧
    (∀ name, name ∈ (Tasks env).map Prod.fst →
      ∃ f, (Tasks env).lookup name = some f ∧
        ∀ vs w, ExecuteTask env name vs w =
          rangeLoop f (if vs.length = 0 then vs ++ [""] else vs) (entryWorld name vs w)) ∧
    (∀ name vs w e, name ∈ (Tasks env).map Prod.fst →
      (ExecuteTask env name vs w).1 = some e →
      ∃ f v w1, (Tasks env).lookup name = some f ∧
        v ∈ (if vs.length = 0 then vs ++ [""] else vs) ∧
        f v w1 = (some e, (ExecuteTask env name vs w).2)) ∧
    (∀ name f, (Tasks env).lookup name = some f →
      (∀ v w1, (f v w1).1 ≠ some (notFound name)) →
      ∀ vs w, (ExecuteTask env name vs w).1 ≠ some (notFound name)) ∧
    (∀ vs w, (ExecuteTask env "NoOp" vs w).1 ≠ some (notFound "NoOp")) ∧
    (∀ vs w, (ExecuteTask env "Sleep" vs w).1 ≠ some (notFound "Sleep")) ∧
    "noop" ∉ (Tasks env).map Prod.fst ∧ "SLEEP" ∉ (Tasks env).map Prod.fst ∧
    "Sleep " ∉ (Tasks env).map Prod.fst ∧ "" ∉ (Tasks env).map Prod.fst := by
  refine ⟨rfl, by rw [Tasks_keys]; decide, rfl, rfl, rfl, rfl, rfl, ?_, ?_, ?_, ?_, ?_, ?_,
    ?_, ?_, by rw [Tasks_keys]; decide, by rw [Tasks_keys]; decide,
    by rw [Tasks_keys]; decide, by rw [Tasks_keys]; decide⟩
  · intro name vs w
    cases hl : (Tasks env).lookup name with
    | none => simp [ExecuteTaskSite, ExecuteTask, hl]
    | some f => simp [ExecuteTaskSite, ExecuteTask, hl, rangeLoopSite_snd]
  · intro name vs w
    rw [Tasks_keys]
    constructor
    · intro hsite hmem
      obtain ⟨f, hf⟩ := Tasks_lookup_some env name hmem
      simp only [ExecuteTaskSite, hf] at hsite
      exact rangeLoopSite_ne_line28 f _ _ hsite
    · intro hmem
      simp [ExecuteTaskSite, Tasks_lookup_none env name hmem]
  · intro name vs w h
    rw [Tasks_keys] at h
    exact ExecuteTask_of_lookup_none env name vs w (Tasks_lookup_none env name h)
  · intro name h
    rw [Tasks_keys] at h
    obtain ⟨f, hf⟩ := Tasks_lookup_some env name h
    exact ⟨f, hf, fun vs w => ExecuteTask_of_lookup_some env name f vs w hf⟩
  · intro name vs w e h he
    rw [Tasks_keys] at h
    obtain ⟨f, hf⟩ := Tasks_lookup_some env name h
    rw [ExecuteTask_of_lookup_some env name f vs w hf] at he ⊢
    obtain ⟨v, w1, hv, hfv⟩ := rangeLoop_error_origin f _ _ e he
    exact ⟨f, v, w1, hf, hv, hfv⟩
  · intro name f hf hnever vs w he
    rw [ExecuteTask_of_lookup_some env name f vs w hf] at he
    obtain ⟨v, w1, _, hfv⟩ := rangeLoop_error_origin f _ _ _ he
    exact hnever v w1 (by rw [hfv])
  · intro vs w
    rw [ExecuteTask_of_lookup_some env "NoOp" taskNoOp vs w rfl, (rangeLoop_taskNoOp _ _).1]
    simp
  · intro vs w
    rw [ExecuteTask_of_lookup_some env "Sleep" (taskSleep env.intSize) vs w rfl]
    rcases rangeLoop_taskSleep_result env.intSize
      (if vs.length = 0 then vs ++ [""] else vs) (entryWorld "Sleep" vs w) with h | ⟨n, k, h⟩
    · rw [h]; simp
    · rw [h]; simp [notFound]

/-- C5: the NoOp task always succeeds: `taskNoOp` returns nil for every value,
and `ExecuteTask("NoOp", vs)` returns nil for every list `vs`; the trace shows
the entry log call followed by one invocation of the task per value, in list
order (one invocation, on the empty string, when `vs` is empty). -/
theorem ExecuteTask_NoOp (env : Env) (vs : List String) (w : World) :
    (∀ val w1, (taskNoOp val w1).1 = none) ∧
    (ExecuteTask env "NoOp" vs w).1 = none ∧
    (ExecuteTask env "NoOp" vs w).2.trace =
      w.trace ++ Event.logToDB "DEBUG" [LogArg.str (executingMsg "NoOp" vs)] ::
        (if vs = [] then [""] else vs).map (fun v =>
          Event.logToDB "DEBUG"
            [LogArg.str "NoOp task called with value: ", LogArg.str v]) := by
  refine ⟨fun _ _ => rfl, ?_, ?_⟩
  · rw [ExecuteTask_of_lookup_some env "NoOp" taskNoOp vs w rfl]
    exact (rangeLoop_taskNoOp _ _).1
  · rw [ExecuteTask_of_lookup_some env "NoOp" taskNoOp vs w rfl, (rangeLoop_taskNoOp _ _).2,
      entryWorld_trace]
    cases vs <;> simp

/-- C6: for a value `v` that `strconv.Atoi` rejects with error `err`, `taskSleep`
returns `err` and leaves the world untouched (no `time.Sleep` call), so
`ExecuteTask("Sleep", [v])` returns `err` without any sleep; and in a list whose
first unparsable value is `v` (the values `pre` before it parse to `ds`), the
error is `err` and the only sleeps requested are those for `pre`: no value after
`v` is slept on. -/
theorem taskSleep_unparsable (env : Env) (v : String) (err : GoError)
    (h : Atoi env.intSize v = Except.error err) :
    (∀ w, taskSleep env.intSize v w = (some err, w)) ∧
    (∀ w, (ExecuteTask env "Sleep" [v] w).1 = some err ∧
      sleepsOf (ExecuteTask env "Sleep" [v] w).2.trace = sleepsOf w.trace) ∧
    (∀ pre ds post w,
      List.Forall₂ (fun u d => Atoi env.intSize u = Except.ok d) pre ds →
      (ExecuteTask env "Sleep" (pre ++ v :: post) w).1 = some err ∧
      sleepsOf (ExecuteTask env "Sleep" (pre ++ v :: post) w).2.trace =
        sleepsOf w.trace ++ ds.map (fun d => wrapInt64 (wrapInt64 d * Second))) := by
  have key : ∀ pre ds post w,
      List.Forall₂ (fun u d => Atoi env.intSize u = Except.ok d) pre ds →
      (ExecuteTask env "Sleep" (pre ++ v :: post) w).1 = some err ∧
      sleepsOf (ExecuteTask env "Sleep" (pre ++ v :: post) w).2.trace =
        sleepsOf w.trace ++ ds.map (fun d => wrapInt64 (wrapInt64 d * Second)) := by
    intro pre ds post w hpre
    have hlen : ¬ (pre ++ v :: post).length = 0 := by simp
    rw [ExecuteTask_of_lookup_some env "Sleep" (taskSleep env.intSize) _ w rfl, if_neg hlen]
    obtain ⟨h1, h2⟩ := rangeLoop_taskSleep_prefix env.intSize v err post h pre ds hpre
      (entryWorld "Sleep" (pre ++ v :: post) w)
    refine ⟨h1, ?_⟩
    rw [h2, entryWorld_trace, sleepsOf_append]
    simp [sleepsOf]
  refine ⟨fun w => taskSleep_of_error env.intSize v err w h, fun w => ?_, key⟩
  simpa using key [] [] [] w List.Forall₂.nil

/-- Instance of C6: the value `"1.5"` on a 64-bit build. -/
theorem taskSleep_unparsable_witness :
    (∀ w, taskSleep sampleEnv.intSize "1.5" w =
      (some (GoError.numError "Atoi" "1.5" NumErrKind.ErrSyntax), w)) ∧
    (∀ w, (ExecuteTask sampleEnv "Sleep" ["1.5"] w).1 =
        some (GoError.numError "Atoi" "1.5" NumErrKind.ErrSyntax) ∧
      sleepsOf (ExecuteTask sampleEnv "Sleep" ["1.5"] w).2.trace = sleepsOf w.trace) ∧
    (∀ pre ds post w,
      List.Forall₂ (fun u d => Atoi sampleEnv.intSize u = Except.ok d) pre ds →
      (ExecuteTask sampleEnv "Sleep" (pre ++ "1.5" :: post) w).1 =
        some (GoError.numError "Atoi" "1.5" NumErrKind.ErrSyntax) ∧
      sleepsOf (ExecuteTask sampleEnv "Sleep" (pre ++ "1.5" :: post) w).2.trace =
        sleepsOf w.trace ++ ds.map (fun d => wrapInt64 (wrapInt64 d * Second))) :=
  taskSleep_unparsable sampleEnv "1.5" (GoError.numError "Atoi" "1.5" NumErrKind.ErrSyntax) rfl

/-- C10: `ExecuteTask("Sleep", [])` returns a non-nil parse error and never
sleeps: the substituted empty string reaches `taskSleep`, `strconv.Atoi` rejects
it with a syntax error, and the only effect is the entry log call. -/
theorem ExecuteTask_Sleep_empty (env : Env) (w : World) :
    Atoi env.intSize "" = Except.error (GoError.numError "Atoi" "" NumErrKind.ErrSyntax) ∧
    ExecuteTask env "Sleep" [] w =
      (some (GoError.numError "Atoi" "" NumErrKind.ErrSyntax), entryWorld "Sleep" [] w) ∧
    sleepsOf (ExecuteTask env "Sleep" [] w).2.trace = sleepsOf w.trace := by
  have hA : Atoi env.intSize "" =
      Except.error (GoError.numError "Atoi" "" NumErrKind.ErrSyntax) := rfl
  have hE : ExecuteTask env "Sleep" [] w =
      (some (GoError.numError "Atoi" "" NumErrKind.ErrSyntax), entryWorld "Sleep" [] w) := by
    rw [ExecuteTask_of_lookup_some env "Sleep" (taskSleep env.intSize) [] w rfl]
    simp [rangeLoop, taskSleep_of_error env.intSize "" _ _ hA]
  refine ⟨hA, hE, ?_⟩
  rw [hE, entryWorld_trace, sleepsOf_append]
  simp [sleepsOf]

/-- Within ±9223372036 seconds the product `time.Duration(d) * time.Second` does
not wrap: `taskSleep` logs, requests a sleep of exactly `d` seconds once, and
returns nil. -/
theorem taskSleep_exact_in_range (intSize : Nat) (val : String) (d : Int) (w : World)
    (h : Atoi intSize val = Except.ok d) (hlo : -9223372036 ≤ d) (hhi : d ≤ 9223372036) :
    taskSleep intSize val w =
      (none, timeSleep (d * Second)
        (LogToDB "DEBUG"
          [LogArg.str "Sleep task called for ", LogArg.int d, LogArg.str " seconds"] w)) := by
  have h1 : wrapInt64 d = d := by
    unfold wrapInt64
    omega
  have h2 : wrapInt64 (d * Second) = d * Second := by
    unfold wrapInt64 Second
    omega
  rw [taskSleep_of_ok intSize val d w h, h1, h2]

/-- C7 (fails on the code): on a 64-bit build the value "9223372037" parses as
d = 9223372037, the log call announces a sleep of 9223372037 seconds, and the
`int64` product `d * 1000000000` wraps to -9223372036709551616 nanoseconds: the
single sleep requested is not `d` seconds and does not block at all. -/
theorem taskSleep_wraps_at_9223372037 :
    Atoi 64 "9223372037" = Except.ok 9223372037 ∧
    (∀ w, taskSleep 64 "9223372037" w =
      (none, timeSleep (-9223372036709551616)
        (LogToDB "DEBUG" [LogArg.str "Sleep task called for ", LogArg.int 9223372037,
          LogArg.str " seconds"] w))) ∧
    (-9223372036709551616 : Int) ≠ 9223372037 * Second ∧
    blocks (-9223372036709551616) = false ∧
    sleepsOf (taskSleep 64 "9223372037" sampleWorld).2.trace = [-9223372036709551616] := by
  have hA : Atoi 64 "9223372037" = Except.ok 9223372037 := rfl
  refine ⟨hA, fun w => ?_, by decide, by decide, ?_⟩
  · rw [taskSleep_of_ok 64 "9223372037" 9223372037 w hA]
    rfl
  · rw [taskSleep_of_ok 64 "9223372037" 9223372037 sampleWorld hA]
    rfl

/-! ## Validation errors and the store -/

/-- C8 as stated is false: for the unknown name "noop" the task-not-found error
is returned after a `LogToDB` call, and under a verbose configuration that call
has written a row to the store's log table. -/
theorem ExecuteTask_unknown_name_logs_first :
    "noop" ∉ (Tasks sampleEnv).map Prod.fst ∧
    (ExecuteTask sampleEnv "noop" [] sampleWorld).1 = some (notFound "noop") ∧
    logCallsOf sampleWorld.trace = [] ∧
    logCallsOf (ExecuteTask sampleEnv "noop" [] sampleWorld).2.trace =
      [("DEBUG", [LogArg.str "Executing builtin task noop with parameters []"])] ∧
    sampleWorld.log = [] ∧
    (ExecuteTask sampleEnv "noop" [] sampleWorld).2.log =
      [("DEBUG", [LogArg.str "Executing builtin task noop with parameters []"])] := by
  decide

/-- C8, amended: for a name that is not a key of the registry, `ExecuteTask`
returns the task-not-found error after exactly one call to a collaborator, the
call `LogToDB("DEBUG", "Executing builtin task <name> with parameters <values>")`
of line 22; that call writes a row to the store's log table exactly when the
configuration is verbose, and there is no other store interaction (no statement
is sent, nothing else is logged, nothing sleeps). -/
theorem ExecuteTask_unknown_name_store (env : Env) (name : String) (vs : List String)
    (w : World) (h : name ∉ (Tasks env).map Prod.fst) :
    (ExecuteTask env name vs w).1 = some (notFound name) ∧
    (ExecuteTask env name vs w).2.trace =
      w.trace ++ [Event.logToDB "DEBUG" [LogArg.str (executingMsg name vs)]] ∧
    (ExecuteTask env name vs w).2.log =
      (if w.verbose then w.log ++ [("DEBUG", [LogArg.str (executingMsg name vs)])]
       else w.log) ∧
    txExecsOf (ExecuteTask env name vs w).2.trace = txExecsOf w.trace ∧
    sleepsOf (ExecuteTask env name vs w).2.trace = sleepsOf w.trace := by
  rw [Tasks_keys] at h
  rw [ExecuteTask_of_lookup_none env name vs w (Tasks_lookup_none env name h)]
  refine ⟨rfl, rfl, ?_, ?_, ?_⟩
  · cases hv : w.verbose <;> simp [entryWorld, LogToDB, persisted, hv]
  · simp [entryWorld_trace, txExecsOf_append, txExecsOf]
  · simp [entryWorld_trace, sleepsOf_append, sleepsOf]

/-- Instance of the amended C8: the name "SLEEP" under a non-verbose
configuration. -/
theorem ExecuteTask_unknown_name_store_witness :
    (ExecuteTask sampleEnv "SLEEP" ["2"] quietWorld).1 =
      some (notFound "SLEEP") ∧
    (ExecuteTask sampleEnv "SLEEP" ["2"] quietWorld).2.trace =
      quietWorld.trace ++
        [Event.logToDB "DEBUG" [LogArg.str (executingMsg "SLEEP" ["2"])]] ∧
    (ExecuteTask sampleEnv "SLEEP" ["2"] quietWorld).2.log =
      (if quietWorld.verbose then
        quietWorld.log ++ [("DEBUG", [LogArg.str (executingMsg "SLEEP" ["2"])])]
       else quietWorld.log) ∧
    txExecsOf (ExecuteTask sampleEnv "SLEEP" ["2"] quietWorld).2.trace =
      txExecsOf quietWorld.trace ∧
    sleepsOf (ExecuteTask sampleEnv "SLEEP" ["2"] quietWorld).2.trace =
      sleepsOf quietWorld.trace :=
  ExecuteTask_unknown_name_store sampleEnv "SLEEP" ["2"] quietWorld
    (by decide)

/-- C9: for every store, `ExecuteSQLCommand` returns an error for every command
text that is empty or consists only of spaces and tabs, for every parameter list,
and leaves the world untouched (nothing is sent to the store); and for the command
text ";" with an empty (or nil) parameter list it passes validation, sends the one
statement and returns no error. -/
theorem ExecuteSQLCommand_validation
    (store : String → List String → World → Option GoError) :
    (∀ script ps w, (∀ c ∈ script.data, c = ' ' ∨ c = Char.ofNat 9) →
      (ExecuteSQLCommand store script ps w).1 ≠ none ∧
      (ExecuteSQLCommand store script ps w).2 = w) ∧
    (∀ ps w, (ExecuteSQLCommand store "" ps w).1 ≠ none ∧
      (ExecuteSQLCommand store "   " ps w).1 ≠ none) ∧
    (∀ w, (ExecuteSQLCommand store ";" [] w).1 = none ∧
      txExecsOf (ExecuteSQLCommand store ";" [] w).2.trace =
        txExecsOf w.trace ++ [(";", [])]) := by
  have hblank : ∀ script ps w, (∀ c ∈ script.data, c = ' ' ∨ c = Char.ofNat 9) →
      (ExecuteSQLCommand store script ps w).1 ≠ none ∧
      (ExecuteSQLCommand store script ps w).2 = w := by
    intro script ps w hws
    have hall : script.data.all isSpace = true := by
      rw [List.all_eq_true]
      intro c hc
      rcases hws c hc with h | h <;> subst h <;> decide
    simp [ExecuteSQLCommand, hall]
  refine ⟨hblank, fun ps w => ⟨?_, ?_⟩, fun w => ?_⟩
  · exact (hblank "" ps w (by decide)).1
  · exact (hblank "   " ps w (by decide)).1
  · have hno : (";" : String).data.all isSpace = false := by decide
    simp [ExecuteSQLCommand, hno, txExec, storeAnswer, txExecsOf_append, txExecsOf]

end PgTimetable
